import Mathlib

/-!
Shallow embedding of the core of the trade-bot scraper
(selenium_open_page.py and database_setup.py): the download-extension
pattern, the document text extractor, the dedup ledger insert, the
per-item harvest control flow, pagination, and the top-level run loop.
External effects (browser waits, network downloads, file contents) are
inputs of the model; the definitions follow the Python source.
-/

namespace TradeBot

/-- Initial-segment test on character lists: `leadsWith n h` is true when
`n` is an initial segment of `h`. Building block for the Python substring
operator. -/
def leadsWith : List Char → List Char → Bool
  | [], _ => true
  | _ :: _, [] => false
  | a :: as, b :: bs => a == b && leadsWith as bs

/-- Occurrence of `needle` somewhere inside `hay`, over character lists:
the Python `needle in hay` test on strings. -/
def occursIn (needle : List Char) : List Char → Bool
  | [] => needle.isEmpty
  | b :: bs => leadsWith needle (b :: bs) || occursIn needle bs

/-- Python `needle in hay` on strings, as used at
`"disable" in next_li.get_attribute("class")` and
`"access denied" in drv.title.lower()`. -/
def pyContains (hay needle : String) : Bool :=
  occursIn needle.toList hay.toList

/-- Python `str.lower` restricted to ASCII letters, which is all the
pattern alternatives and the phrase "access denied" contain. -/
def lowerStr (s : String) : String :=
  String.mk (s.toList.map Char.toLower)

/-- The ASCII whitespace characters `str.strip` removes by default. -/
def isPySpace (c : Char) : Bool :=
  c == ' ' || c == '\t' || c == '\n' || c == '\r' || c == '\x0b' || c == '\x0c'

/-- Python `str.strip()` with no argument: whitespace removed from both
ends. -/
def stripStr (s : String) : String :=
  String.mk (((s.toList.dropWhile isPySpace).reverse.dropWhile isPySpace).reverse)

/-- The alternatives of `DL_EXT_PATTERN = re.compile(r"\.(pdf|docx?|xlsx?|pptx?|zip)$", re.I)`
with the optional letters expanded: `docx?` stands for `doc` and `docx`,
and so on. -/
def dlExts : List String :=
  ["pdf", "doc", "docx", "xls", "xlsx", "ppt", "pptx", "zip"]

/-- One attempt of the pattern at the start of `cs` (already lowercased):
a literal dot, one alternative, then the `$` anchor, which in Python
matches at the end of the subject or just before one final newline. -/
def dlAtStart (cs : List Char) : Bool :=
  match cs with
  | c :: rest =>
    c == '.' && dlExts.any (fun e => rest == e.toList || rest == e.toList ++ ['\n'])
  | [] => false

/-- `re.search` of the pattern over a lowercased character list: the
pattern may match starting at any position. -/
def dlSearchChars : List Char → Bool
  | [] => false
  | c :: rest => dlAtStart (c :: rest) || dlSearchChars rest

/-- Model of `DL_EXT_PATTERN.search(href) is not None`
(selenium_open_page.py line 54): case-insensitivity of `re.I` is obtained
by lowering the subject, every alternative being lowercase. Note the
pattern is applied to the whole href string, not to any parsed part of
it. -/
def DL_EXT_PATTERN_search (href : String) : Bool :=
  dlSearchChars (lowerStr href).toList

/-- Helper for the stdlib model of `urlparse`: the characters after the
first `://` marker, the empty list when there is none. -/
def afterSchemeMark : List Char → List Char
  | [] => []
  | ':' :: '/' :: '/' :: rest => rest
  | _ :: rest => afterSchemeMark rest

/-- Modelled from the Python stdlib: the `path` attribute of
`urlparse(url)` for the URLs this scraper meets. When the URL carries a
`scheme://netloc` head, the path is what follows the host up to the first
`?` or `#`; without that head the whole string up to the first `?` or `#`
is the path. (Exotic scheme-only forms such as `mailto:` are outside the
model.) -/
def urlPath (s : String) : String :=
  let cs := s.toList
  let body :=
    if occursIn [':', '/', '/'] cs then
      (afterSchemeMark cs).dropWhile (fun c => c ≠ '/')
    else cs
  String.mk (body.takeWhile (fun c => c ≠ '?' && c ≠ '#'))

/-- Modelled from the Python stdlib: `os.path.basename`, the characters
after the last slash. -/
def osBasename (p : String) : String :=
  String.mk (p.toList.foldl (fun acc c => if c = '/' then [] else acc ++ [c]) [])

/-- Value of one hexadecimal digit, `none` for any other character. -/
def hexDigitVal (c : Char) : Option Nat :=
  let n := c.toNat
  if 48 ≤ n ∧ n ≤ 57 then some (n - 48)
  else if 97 ≤ n ∧ n ≤ 102 then some (n - 97 + 10)
  else if 65 ≤ n ∧ n ≤ 70 then some (n - 65 + 10)
  else none

/-- Modelled from the Python stdlib: `urllib.parse.unquote` on character
lists, for single-byte percent escapes (multi-byte UTF-8 reassembly is
not exercised by the names in scope). A `%` not followed by two hex
digits is kept verbatim, as in Python. -/
def unquoteChars : List Char → List Char
  | '%' :: a :: b :: rest =>
    match hexDigitVal a, hexDigitVal b with
    | some x, some y => Char.ofNat (16 * x + y) :: unquoteChars rest
    | _, _ => '%' :: unquoteChars (a :: b :: rest)
  | c :: rest => c :: unquoteChars rest
  | [] => []

/-- `urllib.parse.unquote` on strings. -/
def unquoteStr (s : String) : String :=
  String.mk (unquoteChars s.toList)

/-- Index of the last dot in a character list, if any. -/
def rfindDot : List Char → Option Nat
  | [] => none
  | c :: rest =>
    match rfindDot rest with
    | some i => some (i + 1)
    | none => if c = '.' then some 0 else none

/-- Modelled from the Python stdlib: `PurePath.suffix` of a file name,
the part of the name from its last dot, unless that dot is the first or
the last character, in which case the suffix is empty. -/
def pathSuffix (name : String) : String :=
  let cs := name.toList
  match rfindDot cs with
  | none => ""
  | some i => if 0 < i ∧ i < cs.length - 1 then String.mk (cs.drop i) else ""

/-- Abstract content of a downloaded file: what each format-specific
library call inside `extract_text_from_file` would produce on it.
`pdfPages` holds `page.extract_text()` per PDF page, `docParagraphs`
holds `para.text` per paragraph, `sheetRows` holds the cell values row by
row across all sheets (`none` for a cell whose value is falsy, which the
code skips), `decodeFails`/`errMsg` describe the exception the library
raises when the bytes cannot be decoded. -/
structure FileContent where
  pdfPages : List String
  docParagraphs : List String
  sheetRows : List (List (Option String))
  decodeFails : Bool
  errMsg : String
deriving DecidableEq

/-- The three extraction rules of `extract_text_from_file`. -/
inductive ExtractorRule
  | pdfRule
  | docxRule
  | xlsxRule
deriving DecidableEq

/-- The `if/elif` dispatch of `extract_text_from_file` on
`filepath.suffix` (selenium_open_page.py lines 162-171): only the exact
lowercase suffixes `.pdf`, `.docx` and `.xlsx` select a rule; any other
suffix selects none and the accumulated text stays empty. -/
def extractorRuleFor (name : String) : Option ExtractorRule :=
  if pathSuffix name == ".pdf" then some .pdfRule
  else if pathSuffix name == ".docx" then some .docxRule
  else if pathSuffix name == ".xlsx" then some .xlsxRule
  else none

/-- Text of one spreadsheet row: every non-falsy cell value followed by a
space, then a newline ending the row. -/
def rowChunk (row : List (Option String)) : String :=
  String.join ((row.filterMap id).map (fun v => v ++ " ")) ++ "\n"

/-- `extract_text_from_file` (selenium_open_page.py lines 158-181): PDF
pages, document paragraphs, or spreadsheet rows are concatenated
newline-separated; a decode failure inside a branch is caught and turned
into the placeholder string embedding the file name and error; a file
matching no branch yields the empty string. -/
def extract_text_from_file (fc : FileContent) (name : String) : String :=
  match extractorRuleFor name with
  | some r =>
    if fc.decodeFails then
      "[Error extracting text from " ++ name ++ ": " ++ fc.errMsg ++ "]"
    else
      match r with
      | .pdfRule => String.join (fc.pdfPages.map (fun t => t ++ "\n"))
      | .docxRule => String.join (fc.docParagraphs.map (fun t => t ++ "\n"))
      | .xlsxRule => String.join (fc.sheetRows.map rowChunk)
  | none => ""

/-- One row of the `articles` table as the scraper inserts it
(database_setup.py lines 22-36): the remaining columns (`id`,
`scraped_at`, `processing_status`, the llm fields) are store-assigned or
written later by the external analysis collaborator. -/
structure Article where
  title : String
  url : String
  publication_date : String
  article_text : String
  attachments_text : String
deriving DecidableEq

/-- The `articles` table, rows in insertion order. -/
abbrev DB := List Article

/-- Whether some stored row already carries this url: the situation in
which the `UNIQUE` constraint on `url` makes an INSERT raise
`sqlite3.IntegrityError`. -/
def hasUrl (db : DB) (u : String) : Bool :=
  db.any (fun r => r.url == u)

/-- `add_article_to_db` (selenium_open_page.py lines 183-209): a plain
INSERT under the storage-layer uniqueness constraint on `url`; the
constraint violation is caught and reported as `false` with nothing
written, a successful insert commits exactly one appended row and
reports `true`. -/
def add_article_to_db (a : Article) (db : DB) : Bool × DB :=
  if hasUrl db a.url then (false, db) else (true, db ++ [a])

/-- A sequence of invocations of the ledger insert, in order; the list of
reported results together with the final store. -/
def insertSeq : List Article → DB → List Bool × DB
  | [], db => ([], db)
  | a :: as, db =>
    let r := add_article_to_db a db
    let rest := insertSeq as r.2
    (r.1 :: rest.1, rest.2)

/-- One listing item as produced by `extract_list_items`: publication
date text, title, and the canonical absolute url. -/
structure Item where
  date : String
  title : String
  url : String
deriving DecidableEq

/-- One `a[href]` element of a loaded detail page together with the
externally determined outcome of its download: the value of
`get_attribute("href")` (empty when the attribute yields nothing),
whether `requests.get` / `raise_for_status` / `write_bytes` succeeds
within the timeout, and the abstract content of the downloaded file. -/
structure Link where
  href : String
  downloadOk : Bool
  content : FileContent
deriving DecidableEq

/-- The external state one `scrape_article` call observes: how many
window handles exist before the call (just the listing window in the
normal case), whether the bounded wait for the detail page body
succeeds, the rendered paragraphs, and the outbound links. -/
structure DetailEnv where
  windowsBefore : Nat
  loadOk : Bool
  mainParagraphs : List String
  bodyParagraphs : List String
  links : List Link
deriving DecidableEq

/-- Observable steps of a run, for stating which pages are visited, which
downloads are attempted, and which rows are written. -/
inductive Action
  | openTab (url : String)
  | loadDetail (url : String)
  | download (url : String)
  | downloadFail (url : String)
  | insertedRow (url : String)
  | duplicateRow (url : String)
  | closeTab
deriving DecidableEq

/-- Outcome of one `scrape_article` call: the steps taken, the store
afterwards, whether an exception escaped the call, whether the tab opened
by `window.open` was closed again, and whether the driver focus is back
on the listing window. -/
structure ScrapeResult where
  trace : List Action
  db : DB
  raised : Bool
  contextClosed : Bool
  focusParent : Bool
deriving DecidableEq

/-- Helper for the scheme-relative branch of `urljoin`: the
`scheme://host` head of a URL. -/
def schemeHost (s : String) : String :=
  let cs := s.toList
  let after := afterSchemeMark cs
  let host := after.takeWhile (fun c => c ≠ '/')
  String.mk (cs.take (cs.length - after.length) ++ host)

/-- Helper for the relative branch of `urljoin`: the base up to and
including its last slash. -/
def dirOf (s : String) : String :=
  let cs := s.toList
  String.mk (cs.take (cs.length - (osBasename s).toList.length))

/-- Modelled from the Python stdlib: the fragment of `urljoin(base, href)`
this scraper exercises. Hrefs read through `get_attribute("href")` are
already absolute, which `urljoin` returns unchanged; a root-relative href
resolves against the scheme and host of the base, any other against the
directory of the base. Dot-segment normalisation is not modelled. -/
def urljoinModel (base href : String) : String :=
  if occursIn [':', '/', '/'] href.toList then href
  else if leadsWith ['/'] href.toList then schemeHost base ++ href
  else dirOf base ++ href

/-- The file name derived for a link inside the attachment loop:
`unquote(os.path.basename(urlparse(full_url).path))`. -/
def attachmentName (itemUrl href : String) : String :=
  unquoteStr (osBasename (urlPath (urljoinModel itemUrl href)))

/-- Whether the attachment loop attempts this link at all: the code
skips a link when the href is falsy or the pattern finds no match. -/
def linkAdmitted (l : Link) : Bool :=
  !(l.href == "") && DL_EXT_PATTERN_search l.href

/-- The content block appended for a successfully downloaded link. -/
def contentBlock (itemUrl : String) (l : Link) : String :=
  "--- CONTENT FROM " ++ attachmentName itemUrl l.href ++ " ---\n"
    ++ extract_text_from_file l.content (attachmentName itemUrl l.href)

/-- The attachment for-loop of `scrape_article` (lines 240-262): links in
DOM order; a skipped or failing link contributes no block, a successful
one contributes its content block; a download failure is caught by the
`except` and the loop continues. Returns the accumulated blocks and the
download attempts. -/
def attachmentLoop (itemUrl : String) : List Link → List String × List Action
  | [] => ([], [])
  | l :: ls =>
    let rest := attachmentLoop itemUrl ls
    if linkAdmitted l then
      if l.downloadOk then
        (contentBlock itemUrl l :: rest.1,
          Action.download (urljoinModel itemUrl l.href) :: rest.2)
      else
        (rest.1, Action.downloadFail (urljoinModel itemUrl l.href) :: rest.2)
    else rest

/-- The body text assembled from the rendered page: the `main p` elements
when any exist, otherwise all `p` elements — the Python `or` between the
two `find_elements` calls — each stripped, the blank ones dropped,
joined with newlines. -/
def bodyTextOf (env : DetailEnv) : String :=
  let paragraphs :=
    if env.mainParagraphs.isEmpty then env.bodyParagraphs else env.mainParagraphs
  String.intercalate "\n" ((paragraphs.map stripStr).filter (fun t => t ≠ ""))

/-- `scrape_article` (selenium_open_page.py lines 215-279). The call
opens the item in a new tab via `window.open`, so a tab exists from the
first step on; the wait for the window count to become two, the handle
pick and the focus switch all precede the `try`, so a failure there
escapes with the tab still open. From the `try` on, the `finally` closes
the tab and restores focus on every path: a load-wait timeout escapes as
an exception after that cleanup; on a successful load the body text and
attachment blocks are assembled and the record is handed to
`add_article_to_db`, whose duplicate outcome is only logged. -/
def scrape_article (env : DetailEnv) (it : Item) (db : DB) : ScrapeResult :=
  if env.windowsBefore + 1 ≠ 2 then
    { trace := [.openTab it.url], db := db, raised := true,
      contextClosed := false, focusParent := true }
  else if env.loadOk = false then
    { trace := [.openTab it.url, .closeTab], db := db, raised := true,
      contextClosed := true, focusParent := true }
  else
    let att := attachmentLoop it.url env.links
    let record : Article :=
      { title := it.title, url := it.url, publication_date := it.date,
        article_text := bodyTextOf env,
        attachments_text := String.intercalate "\n\n" att.1 }
    let ins := add_article_to_db record db
    { trace := [.openTab it.url, .loadDetail it.url] ++ att.2
        ++ [if ins.1 then .insertedRow it.url else .duplicateRow it.url, .closeTab],
      db := ins.2, raised := false, contextClosed := true, focusParent := true }

/-- The per-page item loop of `main` (lines 312-313): each item is
scraped in turn with no exception handler around the call, so a raising
harvest aborts the loop; the aborting item, if any, is returned. -/
def scrapeAll (envOf : String → DetailEnv) :
    List Item → DB → DB × List Action × Option Item
  | [], db => (db, [], none)
  | it :: more, db =>
    let r := scrape_article (envOf it.url) it db
    if r.raised then (r.db, r.trace, some it)
    else
      let rest := scrapeAll envOf more r.db
      (rest.1, r.trace ++ rest.2.1, rest.2.2)

/-- The page loop of `main` (lines 304-317): scan the current page, stop
on an empty page, otherwise scrape each item and advance;
`goto_next_page` succeeds exactly while further pages exist. The final
component is true when an uncaught exception aborted the run. -/
def runPages (envOf : String → DetailEnv) :
    List (List Item) → DB → DB × List Action × Bool
  | [], db => (db, [], false)
  | pg :: rest, db =>
    if pg.isEmpty then (db, [], false)
    else
      let s := scrapeAll envOf pg db
      if s.2.2.isSome then (s.1, s.2.1, true)
      else if rest.isEmpty then (s.1, s.2.1, false)
      else
        let r := runPages envOf rest s.1
        (r.1, s.2.1 ++ r.2.1, r.2.2)

/-- The externals `main` depends on: whether the database file has been
provisioned, whether the initial `document.readyState` wait succeeds, the
page title after that load, whether the bounded wait inside
`click_period` finds the 1D button, the listing pages with their items,
and the per-item detail environment. -/
structure World where
  dbFileExists : Bool
  initialLoadOk : Bool
  pageTitle : String
  periodOk : Bool
  pages : List (List Item)
  envOf : String → DetailEnv

/-- Outcome of one `main` invocation, together with the process exit
code the `__main__` block produces for it. -/
structure RunOutcome where
  exitCode : Nat
  filterClicked : Bool
  actions : List Action
  db : DB

/-- `main` (selenium_open_page.py lines 285-323) plus the process exit
behaviour: a missing database file exits 1; a timeout of the initial
readyState wait escapes and exits 1; after a completed navigation a
title containing "access denied" returns normally (exit 0) before the
filter is touched; a `click_period` timeout is re-raised and exits 1;
otherwise the page loop runs and an exception escaping it exits 1. -/
def mainRun (w : World) (db : DB) : RunOutcome :=
  if w.dbFileExists = false then
    { exitCode := 1, filterClicked := false, actions := [], db := db }
  else if w.initialLoadOk = false then
    { exitCode := 1, filterClicked := false, actions := [], db := db }
  else if pyContains (lowerStr w.pageTitle) "access denied" then
    { exitCode := 0, filterClicked := false, actions := [], db := db }
  else if w.periodOk = false then
    { exitCode := 1, filterClicked := false, actions := [], db := db }
  else
    let r := runPages w.envOf w.pages db
    { exitCode := if r.2.2 then 1 else 0, filterClicked := true,
      actions := r.2.1, db := r.1 }

/-- The class attribute of the next-page control when the control is
present, and the outcomes of the two bounded waits `goto_next_page`
issues after clicking: staleness of the old list container, and the
active page indicator moving off its pre-click value. -/
structure PaginationEnv where
  nextControl : Option String
  staleOk : Bool
  pageChanged : Bool
deriving DecidableEq

/-- Result of `goto_next_page`: the returned Bool and whether the click
on the control was triggered at all. -/
structure PageNavResult where
  advanced : Bool
  clicked : Bool
deriving DecidableEq

/-- `goto_next_page` (selenium_open_page.py lines 134-152): an absent
control (`NoSuchElementException`) or a class containing "disable"
returns false before any click; otherwise the anchor is clicked and the
two waits run in order inside one `try`, a `TimeoutException` from
either returning false, both succeeding returning true. -/
def goto_next_page (env : PaginationEnv) : PageNavResult :=
  match env.nextControl with
  | none => { advanced := false, clicked := false }
  | some cls =>
    if pyContains cls "disable" then { advanced := false, clicked := false }
    else if env.staleOk = false then { advanced := false, clicked := true }
    else if env.pageChanged = false then { advanced := false, clicked := true }
    else { advanced := true, clicked := true }

/-- Suffix test on character lists: `tailIs pat cs` is true when `pat`
is a terminal segment of `cs`. Spec-side vocabulary for stating what the
download pattern actually classifies. -/
def tailIs (pat : List Char) : List Char → Bool
  | [] => pat.isEmpty
  | c :: rest => pat == c :: rest || tailIs pat rest

/-- Spec-side predicate of claim C8: the path component ends,
case-insensitively, with a dot and one of the document extensions. -/
def pathEndsWithDocExt (p : String) : Bool :=
  dlExts.any (fun e => tailIs ("." ++ e).toList (lowerStr p).toList)

/-- Declarative description of the blocks the attachment loop keeps: the
admitted links whose download succeeds, in link order, each rendered as
its content block. -/
def successfulBlocks (itemUrl : String) (ls : List Link) : List String :=
  (ls.filter (fun l => linkAdmitted l && l.downloadOk)).map (contentBlock itemUrl)

/-- Fixture: a listing item. -/
def itemA : Item := ⟨"2024-01-01", "T", "https://x/a"⟩

/-- Fixture: a second listing item, used as the one whose detail page
fails to load. -/
def itemB : Item := ⟨"2024-01-02", "U", "https://x/b"⟩

/-- Fixture: a pdf link whose download succeeds. -/
def linkGood : Link := ⟨"https://x/files/r.pdf", true, ⟨["Hello"], [], [], false, ""⟩⟩

/-- Fixture: a pdf link whose download fails. -/
def linkFailing : Link := ⟨"https://x/files/s.pdf", false, ⟨["Bye"], [], [], false, ""⟩⟩

/-- Fixture: a detail environment with two attachments, one failing. -/
def envTwoLinks : DetailEnv := ⟨1, true, ["Body"], [], [linkGood, linkFailing]⟩

/-- Fixture: a detail environment with the one successful attachment. -/
def envOneLink : DetailEnv := ⟨1, true, ["Body"], [], [linkGood]⟩

/-- Fixture: a detail environment whose load wait times out. -/
def envNoLoad : DetailEnv := ⟨1, false, [], [], []⟩

/-- Fixture: a detail environment met while a second window already
exists, so the post-open wait for exactly two windows times out. -/
def envExtraWindow : DetailEnv := ⟨2, true, [], [], []⟩

/-- Fixture: environments per item url — item B fails to load, others
behave like the two-link environment. -/
def envOfAB : String → DetailEnv :=
  fun u => if u == "https://x/b" then envNoLoad else envTwoLinks

/-- Fixture: the record the two-link environment persists for item A. -/
def rowA : Article :=
  ⟨"T", "https://x/a", "2024-01-01", "Body", "--- CONTENT FROM r.pdf ---\nHello\n"⟩

/-- Fixture: a previously stored row carrying the url of item A. -/
def rowOld : Article := ⟨"Old", "https://x/a", "2024-01-01", "old body", ""⟩

/-- Fixture: a second article sharing the url of `rowA`. -/
def rowB : Article := ⟨"T2", "https://x/a", "2024-01-02", "other", ""⟩

/-- Fixture: a non-empty file content. -/
def fcSample : FileContent := ⟨["page text"], ["para"], [[some "cell"]], false, ""⟩

/-- Fixture: a world whose initial page title reports access denied,
with a non-empty listing behind it. -/
def worldDenied : World := ⟨true, true, "Access Denied", true, [[itemA]], fun _ => envTwoLinks⟩

theorem hasUrl_append_self (db : DB) (a : Article) :
    hasUrl (db ++ [a]) a.url = true := by
  simp [hasUrl]

theorem hasUrl_add (a : Article) (db : DB) (u : String)
    (h : hasUrl db u = true) :
    hasUrl (add_article_to_db a db).2 u = true := by
  unfold add_article_to_db
  split
  · exact h
  · simp [hasUrl] at h ⊢
    exact Or.inl h

theorem hasUrl_add_self (a : Article) (db : DB) :
    hasUrl (add_article_to_db a db).2 a.url = true := by
  unfold add_article_to_db
  split
  next h => exact h
  next h => exact hasUrl_append_self db a

theorem insertSeq_dup_all (as : List Article) (db : DB)
    (h : ∀ b ∈ as, hasUrl db b.url = true) :
    insertSeq as db = (as.map (fun _ => false), db) := by
  induction as with
  | nil => rfl
  | cons a as ih =>
    have ha := h a (by simp)
    simp [insertSeq, add_article_to_db, ha,
      ih (fun b hb => h b (by simp [hb]))]

/-- C3: for a sequence of ledger inserts whose records all carry one and
the same url, fresh to the store, exactly the first invocation reports
Inserted and every later one reports Duplicate, and the final store is
the original store extended by exactly the one first record — a
duplicate outcome writes nothing. -/
theorem ledger_insert_exactly_once (a : Article) (as : List Article) (db : DB)
    (hsame : ∀ b ∈ as, b.url = a.url) (hfresh : hasUrl db a.url = false) :
    insertSeq (a :: as) db = (true :: as.map (fun _ => false), db ++ [a]) := by
  have h1 : add_article_to_db a db = (true, db ++ [a]) := by
    simp [add_article_to_db, hfresh]
  have h2 : ∀ b ∈ as, hasUrl (db ++ [a]) b.url = true := by
    intro b hb
    rw [hsame b hb]
    exact hasUrl_append_self db a
  simp [insertSeq, h1, insertSeq_dup_all as _ h2]

/-- Witness for C3 at a concrete input: two records with the same url
against the empty store. -/
theorem ledger_insert_exactly_once_witness :
    (∀ b ∈ [rowB], b.url = rowA.url) ∧ hasUrl [] rowA.url = false ∧
    insertSeq [rowA, rowB] [] = ([true, false], [rowA]) := by
  refine ⟨by decide, by decide, ?_⟩
  exact ledger_insert_exactly_once rowA [rowB] [] (by decide) (by decide)

theorem scrape_raised_db (env : DetailEnv) (it : Item) (db : DB)
    (h : (scrape_article env it db).raised = true) :
    (scrape_article env it db).db = db := by
  by_cases h1 : env.windowsBefore + 1 = 2
  · by_cases h2 : env.loadOk
    · simp [scrape_article, h1, h2] at h
    · simp [scrape_article, h1, h2]
  · simp [scrape_article, h1]

theorem scrape_raised_indep (env : DetailEnv) (it : Item) (db db2 : DB) :
    (scrape_article env it db).raised = (scrape_article env it db2).raised := by
  by_cases h1 : env.windowsBefore + 1 = 2 <;>
    by_cases h2 : env.loadOk <;>
    simp [scrape_article, h1, h2]

theorem scrape_super (env : DetailEnv) (it : Item) (db : DB) (u : String)
    (h : hasUrl db u = true) :
    hasUrl (scrape_article env it db).db u = true := by
  by_cases h1 : env.windowsBefore + 1 = 2
  · by_cases h2 : env.loadOk
    · simpa [scrape_article, h1, h2] using hasUrl_add _ db u h
    · simpa [scrape_article, h1, h2] using h
  · simpa [scrape_article, h1] using h

theorem scrape_inserts (env : DetailEnv) (it : Item) (db : DB)
    (h : (scrape_article env it db).raised = false) :
    hasUrl (scrape_article env it db).db it.url = true := by
  by_cases h1 : env.windowsBefore + 1 = 2
  · by_cases h2 : env.loadOk
    · simpa [scrape_article, h1, h2] using hasUrl_add_self _ db
    · simp [scrape_article, h1, h2] at h
  · simp [scrape_article, h1] at h

theorem scrape_dup (env : DetailEnv) (it : Item) (db : DB)
    (h : hasUrl db it.url = true) :
    (scrape_article env it db).db = db := by
  by_cases h1 : env.windowsBefore + 1 = 2
  · by_cases h2 : env.loadOk
    · simp [scrape_article, h1, h2, add_article_to_db, h]
    · simp [scrape_article, h1, h2]
  · simp [scrape_article, h1]

theorem scrapeAll_super (envOf : String → DetailEnv) (items : List Item)
    (db : DB) (u : String) (h : hasUrl db u = true) :
    hasUrl (scrapeAll envOf items db).1 u = true := by
  induction items generalizing db with
  | nil => simpa [scrapeAll] using h
  | cons it more ih =>
    by_cases hr : (scrape_article (envOf it.url) it db).raised
    · simpa [scrapeAll, hr] using scrape_super _ _ _ _ h
    · simpa [scrapeAll, hr] using ih _ (scrape_super _ _ _ _ h)

theorem scrapeAll_abs (envOf : String → DetailEnv) (items : List Item)
    (db dbBig : DB)
    (h : ∀ u, hasUrl (scrapeAll envOf items db).1 u = true →
      hasUrl dbBig u = true) :
    (scrapeAll envOf items dbBig).1 = dbBig ∧
    (scrapeAll envOf items dbBig).2.2 = (scrapeAll envOf items db).2.2 := by
  induction items generalizing db dbBig with
  | nil => simp [scrapeAll]
  | cons it more ih =>
    by_cases hr : (scrape_article (envOf it.url) it db).raised
    · have hrB : (scrape_article (envOf it.url) it dbBig).raised = true := by
        rw [scrape_raised_indep _ _ dbBig db]
        exact hr
      have hdb := scrape_raised_db _ _ _ hr
      have hdbB := scrape_raised_db _ _ _ hrB
      have hsub : ∀ u, hasUrl db u = true → hasUrl dbBig u = true := by
        intro u hu
        apply h
        simpa [scrapeAll, hr, hdb] using hu
      simp [scrapeAll, hr, hrB, hdbB]
    · have hrB : (scrape_article (envOf it.url) it dbBig).raised = false := by
        rw [scrape_raised_indep _ _ dbBig db]
        simpa using hr
      have hsub : ∀ u,
          hasUrl (scrapeAll envOf more (scrape_article (envOf it.url) it db).db).1 u = true →
          hasUrl dbBig u = true := by
        intro u hu
        apply h
        simpa [scrapeAll, hr] using hu
      have huB : hasUrl dbBig it.url = true := by
        apply hsub
        exact scrapeAll_super _ _ _ _ (scrape_inserts _ _ _ (by simpa using hr))
      have hBdb : (scrape_article (envOf it.url) it dbBig).db = dbBig :=
        scrape_dup _ _ _ huB
      have ihh := ih (scrape_article (envOf it.url) it db).db dbBig hsub
      simp only [scrapeAll, hr, hrB, Bool.false_eq_true, if_false, hBdb]
      exact ⟨ihh.1, ihh.2⟩

theorem runPages_super (envOf : String → DetailEnv) (pages : List (List Item))
    (db : DB) (u : String) (h : hasUrl db u = true) :
    hasUrl (runPages envOf pages db).1 u = true := by
  induction pages generalizing db with
  | nil => simpa [runPages] using h
  | cons pg rest ih =>
    by_cases he : pg.isEmpty
    · simpa [runPages, he] using h
    · by_cases ha : (scrapeAll envOf pg db).2.2.isSome
      · simpa [runPages, he, ha] using scrapeAll_super _ _ _ _ h
      · by_cases hrest : rest.isEmpty
        · simpa [runPages, he, ha, hrest] using scrapeAll_super _ _ _ _ h
        · simpa [runPages, he, ha, hrest] using ih _ (scrapeAll_super _ _ _ _ h)

theorem runPages_abs (envOf : String → DetailEnv) (pages : List (List Item))
    (db dbBig : DB)
    (h : ∀ u, hasUrl (runPages envOf pages db).1 u = true →
      hasUrl dbBig u = true) :
    (runPages envOf pages dbBig).1 = dbBig ∧
    (runPages envOf pages dbBig).2.2 = (runPages envOf pages db).2.2 := by
  induction pages generalizing db dbBig with
  | nil => simp [runPages]
  | cons pg rest ih =>
    by_cases he : pg.isEmpty
    · simp [runPages, he]
    · by_cases ha : (scrapeAll envOf pg db).2.2.isSome
      · have hsub : ∀ u, hasUrl (scrapeAll envOf pg db).1 u = true →
            hasUrl dbBig u = true := by
          intro u hu
          apply h
          simpa [runPages, he, ha] using hu
        have habs := scrapeAll_abs envOf pg db dbBig hsub
        have haB : (scrapeAll envOf pg dbBig).2.2.isSome := by
          rw [habs.2]
          exact ha
        simp [runPages, he, ha, haB, habs.1]
      · by_cases hrest : rest.isEmpty
        · have hsub : ∀ u, hasUrl (scrapeAll envOf pg db).1 u = true →
              hasUrl dbBig u = true := by
            intro u hu
            apply h
            simpa [runPages, he, ha, hrest] using hu
          have habs := scrapeAll_abs envOf pg db dbBig hsub
          have haB : ¬ (scrapeAll envOf pg dbBig).2.2.isSome := by
            rw [habs.2]
            exact ha
          simp [runPages, he, ha, haB, hrest, habs.1]
        · have hsub2 : ∀ u,
              hasUrl (runPages envOf rest (scrapeAll envOf pg db).1).1 u = true →
              hasUrl dbBig u = true := by
            intro u hu
            apply h
            simpa [runPages, he, ha, hrest] using hu
          have hsub : ∀ u, hasUrl (scrapeAll envOf pg db).1 u = true →
              hasUrl dbBig u = true := by
            intro u hu
            exact hsub2 u (runPages_super _ _ _ _ hu)
          have habs := scrapeAll_abs envOf pg db dbBig hsub
          have haB : ¬ (scrapeAll envOf pg dbBig).2.2.isSome := by
            rw [habs.2]
            exact ha
          have ihh := ih (scrapeAll envOf pg db).1 dbBig hsub2
          simp only [runPages, he, if_false, Bool.false_eq_true, haB, ha,
            hrest, habs.1, if_neg, ite_false]
          constructor
          · simpa [he, haB, hrest, habs.1] using ihh.1
          · simpa [he, haB, ha, hrest, habs.1] using ihh.2

/-- C4: running the pipeline a second time over the unchanged world
leaves the store exactly as the first run left it — every record the
second run assembles is rejected by the url uniqueness constraint — so
the final record count equals that of a single run. -/
theorem pipeline_idempotent (w : World) (db : DB) :
    (mainRun w (mainRun w db).db).db = (mainRun w db).db ∧
    ((mainRun w (mainRun w db).db).db).length = ((mainRun w db).db).length := by
  by_cases h1 : w.dbFileExists = false
  · simp [mainRun, h1]
  · by_cases h2 : w.initialLoadOk = false
    · simp [mainRun, h1, h2]
    · by_cases h3 : pyContains (lowerStr w.pageTitle) "access denied"
      · simp [mainRun, h1, h2, h3]
      · by_cases h4 : w.periodOk = false
        · simp [mainRun, h1, h2, h3, h4]
        · have habs := runPages_abs w.envOf w.pages db
            (runPages w.envOf w.pages db).1 (fun u hu => hu)
          constructor
          · simpa [mainRun, h1, h2, h3, h4] using habs.1
          · simp [mainRun, h1, h2, h3, h4, habs.1]

/-- C1 counterexample: one page with two items, the first of which fails
its load wait. The run aborts — the abort flag of the page loop is set,
the remaining item is never opened, nothing is persisted — refuting the
claim that the exception stays inside the per-item harvest and the
traversal continues. -/
theorem load_timeout_propagates_cex :
    (runPages envOfAB [[itemB, itemA]] []).2.2 = true ∧
    (runPages envOfAB [[itemB, itemA]] []).2.1.contains
      (Action.openTab "https://x/a") = false ∧
    (runPages envOfAB [[itemB, itemA]] []).1 = [] := by
  decide

/-- C1 amended: when the detail page of an item fails to load within the
bounded wait, the finally block still closes the isolated context and
restores focus, and the store is untouched for that item, but the
timeout is neither caught nor logged inside harvest: the exception
escapes scrape_article and aborts the traversal loop, so the remaining
items are not attempted. -/
theorem load_timeout_aborts_traversal (env : DetailEnv) (it : Item)
    (more : List Item) (envOf : String → DetailEnv) (db : DB)
    (hwin : env.windowsBefore = 1) (hload : env.loadOk = false)
    (henv : envOf it.url = env) :
    (scrape_article env it db).raised = true ∧
    (scrape_article env it db).contextClosed = true ∧
    (scrape_article env it db).focusParent = true ∧
    (scrape_article env it db).db = db ∧
    scrapeAll envOf (it :: more) db =
      (db, [Action.openTab it.url, Action.closeTab], some it) := by
  refine ⟨?_, ?_, ?_, ?_, ?_⟩ <;>
    simp [scrapeAll, scrape_article, henv, hwin, hload]

/-- Witness for C1 amended at the concrete fixture world. -/
theorem load_timeout_aborts_traversal_witness :
    envNoLoad.windowsBefore = 1 ∧ envNoLoad.loadOk = false ∧
    scrapeAll envOfAB [itemB, itemA] [] =
      ([], [Action.openTab "https://x/b", Action.closeTab], some itemB) := by
  refine ⟨rfl, rfl, ?_⟩
  exact (load_timeout_aborts_traversal envNoLoad itemB [itemA] envOfAB []
    rfl rfl (by decide)).2.2.2.2

/-- C2 (code bug): an item whose url is already stored is nevertheless
fully harvested — the tab is opened, the detail page is loaded, the
attachment download is attempted — and only the final insert reports the
duplicate, leaving the store unchanged. The module docstring of
selenium_open_page.py promises the database check happens first and a
known url is skipped before the article is opened. -/
theorem duplicate_item_still_harvested :
    (scrape_article envOneLink itemA [rowOld]).trace =
      [Action.openTab "https://x/a", Action.loadDetail "https://x/a",
       Action.download "https://x/files/r.pdf",
       Action.duplicateRow "https://x/a", Action.closeTab] ∧
    (scrape_article envOneLink itemA [rowOld]).db = [rowOld] := by
  decide

/-- C5 counterexample: with an extra window already present, the wait
for the window count to become exactly two times out after `window.open`
has already created the isolated context; the exception escapes
scrape_article with the context never closed, refuting the every-exit
scoped-resource claim. -/
theorem context_left_open_cex :
    (scrape_article envExtraWindow itemA []).raised = true ∧
    (scrape_article envExtraWindow itemA []).contextClosed = false := by
  decide

/-- C5 amended: once the call proceeds past the window-count wait and the
focus switch — in particular whenever the listing window was the only
window, the normal case — every exit path, success or exception, closes
the isolated context and restores focus to the listing window; an
exception during the window-count wait itself escapes with the context
open. -/
theorem harvest_context_scoped (env : DetailEnv) (it : Item) (db : DB)
    (hwin : env.windowsBefore = 1) :
    (scrape_article env it db).contextClosed = true ∧
    (scrape_article env it db).focusParent = true := by
  by_cases hl : env.loadOk <;> simp [scrape_article, hwin, hl]

/-- Witness for C5 amended: the load-failing environment, where the exit
is by exception, still closes the context and restores focus. -/
theorem harvest_context_scoped_witness :
    envNoLoad.windowsBefore = 1 ∧
    (scrape_article envNoLoad itemB []).contextClosed = true ∧
    (scrape_article envNoLoad itemB []).focusParent = true := by
  refine ⟨rfl, ?_, ?_⟩
  · exact (harvest_context_scoped envNoLoad itemB [] rfl).1
  · exact (harvest_context_scoped envNoLoad itemB [] rfl).2

/-- C6: the pagination step returns false with no click when the next
control is absent, and likewise when its class attribute contains
"disable"; for a present, non-disabled control the anchor is clicked,
and the returned value equals the conjunction of the two wait outcomes:
true exactly when the staleness wait and the page-indicator-change wait
both succeed within the budget, false when either times out. -/
theorem goto_next_page_contract (env : PaginationEnv) :
    (env.nextControl = none → goto_next_page env = ⟨false, false⟩) ∧
    (∀ cls, env.nextControl = some cls → pyContains cls "disable" = true →
      goto_next_page env = ⟨false, false⟩) ∧
    (∀ cls, env.nextControl = some cls → pyContains cls "disable" = false →
      (goto_next_page env).clicked = true ∧
      (goto_next_page env).advanced = (env.staleOk && env.pageChanged)) := by
  refine ⟨?_, ?_, ?_⟩
  · intro h
    simp [goto_next_page, h]
  · intro cls h hc
    simp [goto_next_page, h, hc]
  · intro cls h hc
    constructor
    · by_cases hs : env.staleOk <;> by_cases hp : env.pageChanged <;>
        simp [goto_next_page, h, hc, hs, hp]
    · by_cases hs : env.staleOk <;> by_cases hp : env.pageChanged <;>
        simp [goto_next_page, h, hc, hs, hp]

/-- Witness for C6: a disabled next control yields false without a
click; an enabled control with both waits succeeding is clicked and
advances; an enabled control with a page-change timeout is clicked and
does not advance. -/
theorem goto_next_page_contract_witness :
    (goto_next_page ⟨some "paginationBtn disabled", true, true⟩ =
      ⟨false, false⟩) ∧
    ((goto_next_page ⟨some "paginationBtn", true, true⟩).clicked = true ∧
      (goto_next_page ⟨some "paginationBtn", true, true⟩).advanced =
        (true && true)) ∧
    ((goto_next_page ⟨some "paginationBtn", true, false⟩).clicked = true ∧
      (goto_next_page ⟨some "paginationBtn", true, false⟩).advanced =
        (true && false)) := by
  refine ⟨?_, ?_, ?_⟩
  · exact (goto_next_page_contract ⟨some "paginationBtn disabled", true, true⟩).2.1
      "paginationBtn disabled" rfl (by decide)
  · exact (goto_next_page_contract ⟨some "paginationBtn", true, true⟩).2.2
      "paginationBtn" rfl (by decide)
  · exact (goto_next_page_contract ⟨some "paginationBtn", true, false⟩).2.2
      "paginationBtn" rfl (by decide)

theorem attachmentLoop_fst (itemUrl : String) (ls : List Link) :
    (attachmentLoop itemUrl ls).1 = successfulBlocks itemUrl ls := by
  induction ls with
  | nil => rfl
  | cons l ls ih =>
    by_cases ha : linkAdmitted l
    · by_cases hd : l.downloadOk
      · simp [attachmentLoop, successfulBlocks, ha, hd] at ih ⊢
        exact ih
      · simp [attachmentLoop, successfulBlocks, ha, hd] at ih ⊢
        exact ih
    · simp [attachmentLoop, successfulBlocks, ha] at ih ⊢
      exact ih

/-- C7: on a loaded detail page of a fresh item, a failing attachment
download is caught and skipped, the harvest does not raise, and the
persisted record aggregates exactly the successful admitted attachments,
in link order, as content blocks joined by blank lines; when no
attachment succeeds the aggregate is the empty string; the record is
persisted regardless of the failures. -/
theorem attachment_isolation (env : DetailEnv) (it : Item) (db : DB)
    (hwin : env.windowsBefore = 1) (hload : env.loadOk = true)
    (hfresh : hasUrl db it.url = false) :
    (scrape_article env it db).raised = false ∧
    (scrape_article env it db).db =
      db ++ [{ title := it.title, url := it.url, publication_date := it.date,
               article_text := bodyTextOf env,
               attachments_text :=
                 String.intercalate "\n\n" (successfulBlocks it.url env.links) }] ∧
    (successfulBlocks it.url env.links = [] →
      String.intercalate "\n\n" (successfulBlocks it.url env.links) = "") := by
  refine ⟨?_, ?_, ?_⟩
  · simp [scrape_article, hwin, hload]
  · simp [scrape_article, hwin, hload, attachmentLoop_fst,
      add_article_to_db, hfresh]
  · intro h
    rw [h]
    rfl

/-- Witness for C7: one item with two attachments, one failing; the
persisted record holds the successful block, omits the failed file, and
the row is stored. -/
theorem attachment_isolation_witness :
    hasUrl [] itemA.url = false ∧
    (scrape_article envTwoLinks itemA []).db = [] ++ [rowA] ∧
    pyContains rowA.attachments_text "r.pdf" = true ∧
    pyContains rowA.attachments_text "s.pdf" = false := by
  refine ⟨by decide, ?_, by decide, by decide⟩
  have h := (attachment_isolation envTwoLinks itemA [] rfl rfl (by decide)).2.1
  rw [h]
  decide

theorem beqCommOf {α : Type} [BEq α] [LawfulBEq α] (a b : α) :
    (a == b) = (b == a) := by
  by_cases h : a = b
  · subst h
    rfl
  · rw [beq_eq_false_iff_ne.mpr h, beq_eq_false_iff_ne.mpr (Ne.symm h)]

theorem any_or_split (l : List String) (p q : String → Bool) :
    (l.any fun e => p e || q e) = (l.any p || l.any q) := by
  induction l with
  | nil => rfl
  | cons a l ih =>
    simp only [List.any_cons, ih]
    cases p a <;> cases q a <;> cases l.any p <;> cases l.any q <;> rfl

theorem any_const_and (l : List String) (b : Bool) (p : String → Bool) :
    (l.any fun e => b && p e) = (b && l.any p) := by
  cases b <;> simp

theorem dlSearchChars_ends (cs : List Char) (h : cs.getLast? ≠ some '\n') :
    dlSearchChars cs = dlExts.any (fun e => tailIs ('.' :: e.toList) cs) := by
  induction cs with
  | nil => simp [dlSearchChars, tailIs, List.isEmpty]
  | cons c rest ih =>
    have hrest : rest.getLast? ≠ some '\n' := by
      cases rest with
      | nil => simp
      | cons d ds => simpa [List.getLast?_cons_cons] using h
    have hnl : ∀ e : String, (rest == e.toList ++ ['\n']) = false := by
      intro e
      rcases hb : (rest == e.toList ++ ['\n']) with _ | _
      · rfl
      · exfalso
        apply h
        rw [eq_of_beq hb, ← List.cons_append]
        exact List.getLast?_concat _
    have harg : (fun e : String => (('.' :: e.toList : List Char) == c :: rest)) =
        (fun e : String => c == '.' && rest == e.toList) := by
      funext e
      show (('.' == c && e.toList == rest) : Bool) = (c == '.' && rest == e.toList)
      rw [beqCommOf '.' c, beqCommOf e.toList rest]
    simp only [dlSearchChars, dlAtStart, tailIs]
    rw [ih hrest, any_or_split]
    simp only [hnl]
    rw [any_or_split, harg, any_const_and]
    have hfalse : (dlExts.any fun _ => false) = false := by decide
    rw [hfalse, Bool.or_false]

/-- C8 counterexample: a document path followed by a query string is not
classified (the pattern only looks at the end of the entire href), and a
URL whose path carries no document extension is classified when its
query text ends with one — refuting classification by the path
component in both directions. -/
theorem attachment_classification_cex :
    (DL_EXT_PATTERN_search "https://x/files/doc.pdf?v=2" = false ∧
      pathEndsWithDocExt (urlPath "https://x/files/doc.pdf?v=2") = true) ∧
    (DL_EXT_PATTERN_search "https://x/q?file=.pdf" = true ∧
      pathEndsWithDocExt (urlPath "https://x/q?file=.pdf") = false) := by
  decide

/-- C8 amended: the fetcher classifies a link as an attachment exactly
when the entire href string ends, case-insensitively, with a dot and one
of pdf, doc, docx, xls, xlsx, ppt, pptx, zip (assuming the href does not
end in a newline, the one extra ending the `$` anchor accepts); the path
component is never isolated, so a query string defeats a document path
and can itself trigger a download. -/
theorem attachment_classification_full_href (href : String)
    (hnl : (lowerStr href).toList.getLast? ≠ some '\n') :
    DL_EXT_PATTERN_search href =
      dlExts.any (fun e => tailIs ("." ++ e).toList (lowerStr href).toList) := by
  unfold DL_EXT_PATTERN_search
  rw [dlSearchChars_ends _ hnl]
  rfl

/-- Witness for C8 amended: an uppercase pdf href is classified and does
end with a document extension. -/
theorem attachment_classification_full_href_witness :
    ((lowerStr "https://x/a.PDF").toList.getLast? ≠ some '\n') ∧
    DL_EXT_PATTERN_search "https://x/a.PDF" =
      dlExts.any (fun e => tailIs ("." ++ e).toList
        (lowerStr "https://x/a.PDF").toList) ∧
    DL_EXT_PATTERN_search "https://x/a.PDF" = true := by
  refine ⟨by decide, ?_, by decide⟩
  exact attachment_classification_full_href "https://x/a.PDF" (by decide)

/-- C9 counterexample: report.zip is admitted by the download pattern
yet selects none of the three extraction rules, and extracts to the
empty string even for a file with non-empty content — so not every
admitted file is dispatched to a supported rule. -/
theorem extractor_gap_cex :
    DL_EXT_PATTERN_search "report.zip" = true ∧
    extractorRuleFor "report.zip" = none ∧
    extract_text_from_file fcSample "report.zip" = "" := by
  decide

/-- C9 amended: the extractor dispatches exactly the files whose suffix
is, case-sensitively, .pdf, .docx or .xlsx; every other file — including
admitted doc, xls, ppt, pptx and zip attachments and upper-case
spellings — falls outside all three rules and extracts to the empty
string. -/
theorem extractor_dispatch_exact (name : String) :
    ((extractorRuleFor name).isSome = true ↔
      (pathSuffix name = ".pdf" ∨ pathSuffix name = ".docx" ∨
        pathSuffix name = ".xlsx")) ∧
    (∀ fc : FileContent, extractorRuleFor name = none →
      extract_text_from_file fc name = "") := by
  refine ⟨?_, ?_⟩
  · by_cases h1 : pathSuffix name = ".pdf"
    · simp [extractorRuleFor, h1]
    · by_cases h2 : pathSuffix name = ".docx"
      · simp [extractorRuleFor, h1, h2]
      · by_cases h3 : pathSuffix name = ".xlsx"
        · simp [extractorRuleFor, h1, h2, h3]
        · simp [extractorRuleFor, h1, h2, h3]
  · intro fc h
    simp [extract_text_from_file, h]

/-- Witness for C9 amended: the admitted zip file selects no rule and
extracts to the empty string. -/
theorem extractor_dispatch_exact_witness :
    extractorRuleFor "report.zip" = none ∧
    extract_text_from_file fcSample "report.zip" = "" :=
  ⟨by decide, (extractor_dispatch_exact "report.zip").2 fcSample (by decide)⟩

/-- C10: when the database file exists and the initial navigation
completes but the page title contains "access denied" case-insensitively,
main returns normally: exit code 0, the time-window filter is never
clicked, no listing item is visited, no download is attempted, and the
store is unchanged. -/
theorem access_denied_returns_cleanly (w : World) (db : DB)
    (hdb : w.dbFileExists = true) (hload : w.initialLoadOk = true)
    (hdenied : pyContains (lowerStr w.pageTitle) "access denied" = true) :
    mainRun w db =
      { exitCode := 0, filterClicked := false, actions := [], db := db } := by
  simp [mainRun, hdb, hload, hdenied]

/-- Witness for C10: a world titled Access Denied with a non-empty
listing behind it and a non-empty store. -/
theorem access_denied_returns_cleanly_witness :
    pyContains (lowerStr worldDenied.pageTitle) "access denied" = true ∧
    mainRun worldDenied [rowOld] =
      { exitCode := 0, filterClicked := false, actions := [], db := [rowOld] } :=
  ⟨by decide, access_denied_returns_cleanly worldDenied [rowOld] rfl rfl (by decide)⟩

end TradeBot
